import Mathlib

/-!
Verification of the request-admission and geofencing pipeline of the
address-validation service.

The Go source contains two generations of the pipeline:
a legacy generation (slog-based: `services` with `isSuspicious` and a
200-character cap in `sanitizeAddress`, `adapters/maps_adapter.go`) and a
current generation (zap-based: `services` with an allow-list
`sanitizeAddress` and no threat check, `handlers` rate limiter keyed by a
`config.RateLimitConfig`).  Both are embedded here; definitions carrying a
`v1` marker come from the legacy generation, unmarked ones from the current
generation, except where the two generations agree textually (the rate
limiter `Allow` body and the services `calculateDistance` body are the same
in both).

Timestamps (`time.Time` / `time.Duration`) are modelled as integers
(nanoseconds); `float64` values are modelled as real numbers; strings are
Lean strings, manipulated through their character lists.  The mutex in the
rate limiter serialises calls, so the sequential model below is the
behaviour of the locked critical section.
-/

namespace AddressValidator

/-- RateLimitConfig from config/env.go: MaxRequests uint, TimeWindow time.Duration. -/
structure RateLimitConfig where
  MaxRequests : Nat
  TimeWindow : Int

/-- RateLimiter from the handlers package (current generation, identical Allow
body in the legacy generation): a client-keyed map of admitted timestamps plus
the configured limits.  The Go map yields the empty slice for an absent key,
so the map is modelled as a total function defaulting to the empty list. -/
structure RateLimiter where
  requests : String → List Int
  maxRequests : Nat
  timeWindow : Int

/-- NewRateLimiter from the handlers package. -/
def NewRateLimiter (config : RateLimitConfig) : RateLimiter :=
  { requests := fun _ => [], maxRequests := config.MaxRequests,
    timeWindow := config.TimeWindow }

/-- Allow from the handlers package.  Given the current time `now` it prunes
the timestamps of `ip` that fall outside the window (`now.Sub(t) <= timeWindow`
keeps `t`), stores the pruned slice back, rejects when the pruned count has
reached `maxRequests`, and otherwise appends `now` and admits.  Returns the
verdict together with the post-call state. -/
def RateLimiter.Allow (rl : RateLimiter) (ip : String) (now : Int) :
    Bool × RateLimiter :=
  let validRequests := (rl.requests ip).filter (fun t => now - t ≤ rl.timeWindow)
  let rl1 : RateLimiter :=
    { rl with requests := fun k => if k = ip then validRequests else rl.requests k }
  if rl.maxRequests ≤ validRequests.length then
    (false, rl1)
  else
    (true, { rl1 with
      requests := fun k => if k = ip then validRequests ++ [now] else rl1.requests k })

/-- Sequential burst of Allow calls for one client at the given times,
returning the verdicts in order together with the final state. -/
def allowSeq (rl : RateLimiter) (ip : String) : List Int → List Bool × RateLimiter
  | [] => ([], rl)
  | t :: ts =>
    let r := rl.Allow ip t
    let rest := allowSeq r.2 ip ts
    (r.1 :: rest.1, rest.2)

/-- Sequence of Allow calls for arbitrary clients (pairs of client key and
call time), returning the final state. -/
def runCalls (rl : RateLimiter) (calls : List (String × Int)) : RateLimiter :=
  calls.foldl (fun s c => (s.Allow c.1 c.2).2) rl

lemma Allow_maxRequests (rl : RateLimiter) (ip : String) (now : Int) :
    ((rl.Allow ip now).2).maxRequests = rl.maxRequests := by
  unfold RateLimiter.Allow
  dsimp only
  split <;> rfl

lemma Allow_timeWindow (rl : RateLimiter) (ip : String) (now : Int) :
    ((rl.Allow ip now).2).timeWindow = rl.timeWindow := by
  unfold RateLimiter.Allow
  dsimp only
  split <;> rfl

lemma allowSeq_maxRequests (ts : List Int) (rl : RateLimiter) (ip : String) :
    ((allowSeq rl ip ts).2).maxRequests = rl.maxRequests := by
  induction ts generalizing rl with
  | nil => rfl
  | cons t ts ih =>
    show ((allowSeq (rl.Allow ip t).2 ip ts).2).maxRequests = rl.maxRequests
    rw [ih, Allow_maxRequests]

lemma allowSeq_timeWindow (ts : List Int) (rl : RateLimiter) (ip : String) :
    ((allowSeq rl ip ts).2).timeWindow = rl.timeWindow := by
  induction ts generalizing rl with
  | nil => rfl
  | cons t ts ih =>
    show ((allowSeq (rl.Allow ip t).2 ip ts).2).timeWindow = rl.timeWindow
    rw [ih, Allow_timeWindow]

lemma Allow_length_bound (rl : RateLimiter) (ip : String) (now : Int)
    (h : ∀ k, (rl.requests k).length ≤ rl.maxRequests) (k : String) :
    (((rl.Allow ip now).2).requests k).length ≤ rl.maxRequests := by
  unfold RateLimiter.Allow
  dsimp only
  split
  next hc =>
    by_cases hk : k = ip
    · simpa [hk] using
        le_trans (List.length_filter_le _ (rl.requests ip)) (h ip)
    · simpa [hk] using h k
  next hc =>
    by_cases hk : k = ip
    · have hfl := List.length_filter_le
        (fun t => decide (now - t ≤ rl.timeWindow)) (rl.requests ip)
      subst hk
      simp only [if_pos, List.length_append, List.length_singleton]
      omega
    · simpa [hk] using h k

lemma runCalls_length_le : ∀ (calls : List (String × Int)) (rl : RateLimiter),
    (∀ k, (rl.requests k).length ≤ rl.maxRequests) →
    ∀ k, ((runCalls rl calls).requests k).length ≤ rl.maxRequests := by
  intro calls
  induction calls with
  | nil => intro rl h k; exact h k
  | cons c cs ih =>
    intro rl h k
    have hstep : ∀ k, (((rl.Allow c.1 c.2).2).requests k).length ≤
        ((rl.Allow c.1 c.2).2).maxRequests := by
      intro k
      rw [Allow_maxRequests]
      exact Allow_length_bound rl c.1 c.2 h k
    have := ih (rl.Allow c.1 c.2).2 hstep k
    rwa [Allow_maxRequests] at this

/-- C8 as stated: starting from the empty client-keyed mapping, after every
sequence of Allow calls each client's stored timestamp sequence has length at
most maxRequests. -/
theorem runCalls_length_bound (cfg : RateLimitConfig)
    (calls : List (String × Int)) (ip : String) :
    ((runCalls (NewRateLimiter cfg) calls).requests ip).length ≤ cfg.MaxRequests := by
  exact runCalls_length_le calls (NewRateLimiter cfg) (fun _ => by simp [NewRateLimiter]) ip

lemma Allow_admits (rl : RateLimiter) (ip : String) (now : Int)
    (h1 : ∀ u ∈ rl.requests ip, now - u ≤ rl.timeWindow)
    (h2 : (rl.requests ip).length < rl.maxRequests) :
    (rl.Allow ip now).1 = true ∧
      ((rl.Allow ip now).2).requests ip = rl.requests ip ++ [now] := by
  have hf : (rl.requests ip).filter (fun t => now - t ≤ rl.timeWindow) = rl.requests ip :=
    List.filter_eq_self.mpr (fun a ha => by simpa using h1 a ha)
  unfold RateLimiter.Allow
  dsimp only
  rw [hf, if_neg (by omega)]
  simp

lemma Allow_rejects (rl : RateLimiter) (ip : String) (now : Int)
    (h1 : ∀ u ∈ rl.requests ip, now - u ≤ rl.timeWindow)
    (h2 : rl.maxRequests ≤ (rl.requests ip).length) :
    (rl.Allow ip now).1 = false ∧
      ((rl.Allow ip now).2).requests ip = rl.requests ip := by
  have hf : (rl.requests ip).filter (fun t => now - t ≤ rl.timeWindow) = rl.requests ip :=
    List.filter_eq_self.mpr (fun a ha => by simpa using h1 a ha)
  unfold RateLimiter.Allow
  dsimp only
  rw [hf, if_pos h2]
  simp

lemma Allow_true_of_filter_nil (rl : RateLimiter) (ip : String) (now : Int)
    (hf : (rl.requests ip).filter (fun t => now - t ≤ rl.timeWindow) = [])
    (hpos : 0 < rl.maxRequests) :
    (rl.Allow ip now).1 = true := by
  unfold RateLimiter.Allow
  dsimp only
  rw [hf, if_neg (by simp only [List.length_nil]; omega)]

lemma allowSeq_burst_admits : ∀ (ts : List Int) (rl : RateLimiter) (ip : String),
    (∀ t ∈ rl.requests ip ++ ts, ∀ u ∈ rl.requests ip ++ ts, t - u ≤ rl.timeWindow) →
    (rl.requests ip).length + ts.length ≤ rl.maxRequests →
    (allowSeq rl ip ts).1 = List.replicate ts.length true ∧
      ((allowSeq rl ip ts).2).requests ip = rl.requests ip ++ ts := by
  intro ts
  induction ts with
  | nil =>
    intro rl ip hw hlen
    exact ⟨rfl, (List.append_nil _).symm⟩
  | cons t ts ih =>
    intro rl ip hw hlen
    have hmem_t : t ∈ rl.requests ip ++ t :: ts := by simp
    have h1 : ∀ u ∈ rl.requests ip, t - u ≤ rl.timeWindow := by
      intro u hu
      exact hw t hmem_t u (List.mem_append_left _ hu)
    have h2 : (rl.requests ip).length < rl.maxRequests := by
      simp only [List.length_cons] at hlen
      omega
    obtain ⟨hb, hr⟩ := Allow_admits rl ip t h1 h2
    have hw' : ∀ a ∈ ((rl.Allow ip t).2).requests ip ++ ts,
        ∀ u ∈ ((rl.Allow ip t).2).requests ip ++ ts,
          a - u ≤ ((rl.Allow ip t).2).timeWindow := by
      rw [hr, Allow_timeWindow, List.append_assoc, List.singleton_append]
      exact hw
    have hlen' : (((rl.Allow ip t).2).requests ip).length + ts.length ≤
        ((rl.Allow ip t).2).maxRequests := by
      rw [hr, Allow_maxRequests, List.length_append, List.length_singleton]
      simp only [List.length_cons] at hlen
      omega
    obtain ⟨ihb, ihr⟩ := ih (rl.Allow ip t).2 ip hw' hlen'
    refine ⟨?_, ?_⟩
    · show (rl.Allow ip t).1 :: (allowSeq (rl.Allow ip t).2 ip ts).1 =
        List.replicate (ts.length + 1) true
      rw [hb, ihb, List.replicate_succ]
    · show ((allowSeq (rl.Allow ip t).2 ip ts).2).requests ip =
        rl.requests ip ++ t :: ts
      rw [ihr, hr, List.append_assoc, List.singleton_append]

lemma allowSeq_append (rl : RateLimiter) (ip : String) (xs ys : List Int) :
    allowSeq rl ip (xs ++ ys) =
      ((allowSeq rl ip xs).1 ++ (allowSeq (allowSeq rl ip xs).2 ip ys).1,
        (allowSeq (allowSeq rl ip xs).2 ip ys).2) := by
  induction xs generalizing rl with
  | nil => simp [allowSeq]
  | cons x xs ih => simp [allowSeq, ih]

/-- C1 as stated: from a fresh limiter with maxRequests = N positive, a burst
of N+1 calls for one client, all pairwise within one timeWindow, admits
exactly the first N and rejects the last; a later call made more than the
window after every burst call is admitted again. -/
theorem rateLimiter_burst (cfg : RateLimitConfig) (ip : String)
    (ts : List Int) (tL t' : Int)
    (hpos : 0 < cfg.MaxRequests)
    (hlen : ts.length = cfg.MaxRequests)
    (hw : ∀ t ∈ ts ++ [tL], ∀ u ∈ ts ++ [tL], t - u ≤ cfg.TimeWindow)
    (hafter : ∀ t ∈ ts ++ [tL], cfg.TimeWindow < t' - t) :
    (allowSeq (NewRateLimiter cfg) ip (ts ++ [tL])).1 =
        List.replicate cfg.MaxRequests true ++ [false] ∧
      (((allowSeq (NewRateLimiter cfg) ip (ts ++ [tL])).2).Allow ip t').1 = true := by
  set rl0 := NewRateLimiter cfg with hrl0
  have hreq0 : rl0.requests ip = [] := rfl
  have hW0 : rl0.timeWindow = cfg.TimeWindow := rfl
  have hN0 : rl0.maxRequests = cfg.MaxRequests := rfl
  have hw_ts : ∀ t ∈ rl0.requests ip ++ ts, ∀ u ∈ rl0.requests ip ++ ts,
      t - u ≤ rl0.timeWindow := by
    rw [hreq0, List.nil_append, hW0]
    intro t ht u hu
    exact hw t (List.mem_append_left _ ht) u (List.mem_append_left _ hu)
  have hlen_ts : (rl0.requests ip).length + ts.length ≤ rl0.maxRequests := by
    rw [hreq0, hN0]
    simp [hlen]
  obtain ⟨hb1, hr1⟩ := allowSeq_burst_admits ts rl0 ip hw_ts hlen_ts
  rw [hreq0, List.nil_append] at hr1
  set rl1 := (allowSeq rl0 ip ts).2 with hrl1
  have hW1 : rl1.timeWindow = cfg.TimeWindow := by
    rw [hrl1, allowSeq_timeWindow, hW0]
  have hN1 : rl1.maxRequests = cfg.MaxRequests := by
    rw [hrl1, allowSeq_maxRequests, hN0]
  have hmemL : tL ∈ ts ++ [tL] := List.mem_append_right _ (by simp)
  obtain ⟨hb2, hr2⟩ := Allow_rejects rl1 ip tL
    (by
      rw [hr1, hW1]
      intro u hu
      exact hw tL hmemL u (List.mem_append_left _ hu))
    (by rw [hr1, hN1, hlen])
  rw [allowSeq_append]
  constructor
  · rw [hb1, hlen]
    show List.replicate cfg.MaxRequests true ++
        ((rl1.Allow ip tL).1 :: (allowSeq (rl1.Allow ip tL).2 ip []).1) = _
    rw [hb2]
    rfl
  · show (((allowSeq rl1 ip [tL]).2).Allow ip t').1 = true
    have hst : (allowSeq rl1 ip [tL]).2 = (rl1.Allow ip tL).2 := rfl
    rw [hst]
    apply Allow_true_of_filter_nil
    · rw [Allow_timeWindow, hr2, hr1, hW1]
      refine List.filter_eq_nil_iff.mpr ?_
      intro a ha
      have := hafter a (List.mem_append_left _ ha)
      simpa using by omega
    · rw [Allow_maxRequests, hN1]
      exact hpos

/-- Witness for rateLimiter_burst at concrete inputs: three calls at times
0, 1, 2 with maxRequests = 2 and timeWindow = 10, then one more at time 13. -/
theorem rateLimiter_burst_witness :
    0 < (2 : Nat) ∧ ([(0 : Int), 1] : List Int).length = 2 ∧
      (allowSeq (NewRateLimiter ⟨2, 10⟩) "c" ([0, 1] ++ [2])).1 =
          List.replicate 2 true ++ [false] ∧
        (((allowSeq (NewRateLimiter ⟨2, 10⟩) "c" ([0, 1] ++ [2])).2).Allow "c" 13).1 = true :=
  ⟨by decide, by decide,
    rateLimiter_burst ⟨2, 10⟩ "c" [0, 1] 2 13 (by decide) (by decide)
      (by decide) (by decide)⟩

/-- C5 as stated: one call to Allow prunes, stores the pruned sequence back,
rejects exactly when the post-prune count has reached the limit, appends the
current timestamp exactly on admission. -/
theorem Allow_step_characterisation (rl : RateLimiter) (ip : String) (now : Int) :
    (((rl.Allow ip now).1 = false ↔
        rl.maxRequests ≤ ((rl.requests ip).filter (fun t => now - t ≤ rl.timeWindow)).length)
      ∧ ((rl.Allow ip now).2).requests ip =
        (let pruned := (rl.requests ip).filter (fun t => now - t ≤ rl.timeWindow)
         if rl.maxRequests ≤ pruned.length then pruned else pruned ++ [now])) := by
  unfold RateLimiter.Allow
  dsimp only
  constructor
  · split <;> simp_all
  · split <;> simp

/-- C9 as stated: Allow for one client leaves every other client's stored
sequence unchanged. -/
theorem Allow_frame (rl : RateLimiter) (ip ip' : String) (now : Int)
    (h : ip' ≠ ip) :
    ((rl.Allow ip now).2).requests ip' = rl.requests ip' := by
  unfold RateLimiter.Allow
  dsimp only
  split <;> simp [h]

/-- Witness for Allow_frame at concrete inputs. -/
theorem Allow_frame_witness :
    ("b" : String) ≠ "a" ∧
      (((NewRateLimiter ⟨2, 10⟩).Allow "a" 0).2).requests "b" =
        (NewRateLimiter ⟨2, 10⟩).requests "b" :=
  ⟨by decide, Allow_frame (NewRateLimiter ⟨2, 10⟩) "a" "b" 0 (by decide)⟩

/-! Sanitizer and threat detector.  Character classes follow the Go regexp
(RE2) semantics of the patterns in the source: in RE2, backslash-s is the set
tab, newline, form feed, carriage return, space, and backslash-w is the ASCII
set of digits, letters and underscore.  strings.TrimSpace trims runes with
Unicode White_Space.  Characters are Lean Char (Go runes). -/

/-- RE2 whitespace class used by the source patterns. -/
def goRegexSpace (c : Char) : Bool :=
  c == '\t' || c == '\n' || c == '\x0c' || c == '\r' || c == ' '

/-- RE2 word-character class (ASCII digits, letters, underscore). -/
def goWordChar (c : Char) : Bool :=
  ('0' ≤ c && c ≤ '9') || ('a' ≤ c && c ≤ 'z') || ('A' ≤ c && c ≤ 'Z') || c == '_'

/-- The allow-list of the current sanitizeAddress: characters kept by the
replacement of the class complement-of (word, space, comma, period, hyphen)
with the empty string. -/
def allowedChar (c : Char) : Bool :=
  goWordChar c || goRegexSpace c || c == ',' || c == '.' || c == '-'

/-- Unicode White_Space runes, as trimmed by strings.TrimSpace via
unicode.IsSpace. -/
def goUnicodeIsSpace (c : Char) : Bool :=
  c == '\t' || c == '\n' || c == '\x0b' || c == '\x0c' || c == '\r' || c == ' ' ||
  c.val == 0x85 || c.val == 0xA0 || c.val == 0x1680 ||
  (0x2000 ≤ c.val && c.val ≤ 0x200A) || c.val == 0x2028 || c.val == 0x2029 ||
  c.val == 0x202F || c.val == 0x205F || c.val == 0x3000

/-- strings.TrimSpace on a rune list: drop White_Space runes from both ends. -/
def trimSpace (l : List Char) : List Char :=
  ((l.dropWhile goUnicodeIsSpace).reverse.dropWhile goUnicodeIsSpace).reverse

/-- Replacement of every maximal run of RE2 whitespace by a single space,
modelling ReplaceAllString of the pattern one-or-more-whitespace with a
single space.  The Boolean argument records whether the previous rune was
part of a whitespace run. -/
def collapseAux : Bool → List Char → List Char
  | _, [] => []
  | prevSpace, c :: cs =>
    if goRegexSpace c then
      if prevSpace then collapseAux true cs
      else ' ' :: collapseAux true cs
    else c :: collapseAux false cs

def collapseSpaces (l : List Char) : List Char := collapseAux false l

/-- sanitizeAddress of the current services generation (part_000 lines
276-288): trim, collapse whitespace runs to one space, strip every rune
outside the allow-list.  No length cap is applied. -/
def sanitizeAddress (address : String) : String :=
  String.mk (((collapseSpaces (trimSpace address.data))).filter allowedChar)

/-- Deny-list of the legacy sanitizeAddress (part_000 lines 139-153): the
class of angle brackets, braces, square brackets, semicolon, quotes and
backslash removed by its first replacement. -/
def denyChar (c : Char) : Bool :=
  c == '<' || c == '>' || c == '\x7b' || c == '\x7d' || c == '[' || c == ']' ||
  c == ';' || c == '\'' || c == '"' || c == '\\'

/-- sanitizeAddress of the legacy services generation (part_000 lines
139-153): remove the deny-list characters, trim, cap at 200.  The Go code
slices the first 200 bytes; the model takes the first 200 runes, which obeys
the same length bound. -/
def sanitizeAddress_v1 (address : String) : String :=
  String.mk ((trimSpace (address.data.filter (fun c => !denyChar c))).take 200)

/-- List l begins with the pattern given as second argument. -/
def hasPre : List Char → List Char → Bool
  | _, [] => true
  | [], _ :: _ => false
  | c :: cs, p :: ps => c == p && hasPre cs ps

/-- Some suffix of the list satisfies the scanner predicate. -/
def scanSuffixes (p : List Char → Bool) : List Char → Bool
  | [] => p []
  | c :: cs => p (c :: cs) || scanSuffixes p cs

/-- The pattern occurs as a contiguous substring of the list. -/
def containsSub (pat : List Char) (l : List Char) : Bool :=
  scanSuffixes (fun s => hasPre s pat) l

/-- The list starts with six equal runes; the leading dot of the source
pattern does not match a newline. -/
def startsRun6 : List Char → Bool
  | a :: b :: c :: d :: e :: f :: _ =>
    a != '\n' && b == a && c == a && d == a && e == a && f == a
  | _ => false

/-- Lower-case hexadecimal digit (the scan runs on lower-cased text). -/
def isHexLowerDigit (c : Char) : Bool :=
  ('0' ≤ c && c ≤ '9') || ('a' ≤ c && c ≤ 'f')

/-- The list starts with a hexadecimal literal: 0x and at least one hex
digit. -/
def startsHex : List Char → Bool
  | '0' :: 'x' :: d :: _ => isHexLowerDigit d
  | _ => false

/-- After the first whitespace of a select-from fragment: at least one
non-newline rune, then a whitespace rune, then the word from.  The Boolean
records whether a middle rune has been consumed yet. -/
def midThenFrom : Bool → List Char → Bool
  | _, [] => false
  | started, c :: cs =>
    (started && goRegexSpace c && hasPre cs ['f', 'r', 'o', 'm']) ||
      (c != '\n' && midThenFrom true cs)

/-- The list starts with a select-from SQL fragment: the word select, one
whitespace rune, one or more non-newline runes, one whitespace rune, the
word from. -/
def startsSelectFrom : List Char → Bool
  | 's' :: 'e' :: 'l' :: 'e' :: 'c' :: 't' :: c :: cs =>
    goRegexSpace c && midThenFrom false cs
  | _ => false

/-- Patterns of the keyword alternatives of the suspicious-pattern regex. -/
def patScript : List Char := ['s', 'c', 'r', 'i', 'p', 't']

def patAlert : List Char := ['a', 'l', 'e', 'r', 't', '(']

def patFunction : List Char := ['f', 'u', 'n', 'c', 't', 'i', 'o', 'n']

/-- The list starts with the given word followed by one whitespace rune. -/
def startsWordSpace (w : List Char) (l : List Char) : Bool :=
  match w, l with
  | [], c :: _ => goRegexSpace c
  | [], [] => false
  | _ :: _, [] => false
  | p :: ps, c :: cs => c == p && startsWordSpace ps cs

/-- The verdict described by the suspicious-pattern regex text:
case-insensitive match of a repeated-rune run of length six, a hexadecimal
literal, a select-from fragment, or the literal fragments script, alert(,
function, or a declaration keyword followed by whitespace.  The
case-insensitive flag of the source pattern is modelled by lower-casing the
text before the scan.  This verdict is reachable only behind the pattern
compilation step below, which fails for the source pattern. -/
def suspiciousMatch (address : String) : Bool :=
  let l := address.data.map Char.toLower
  scanSuffixes startsRun6 l || scanSuffixes startsHex l ||
    scanSuffixes startsSelectFrom l ||
    containsSub patScript l || containsSub patAlert l || containsSub patFunction l ||
    scanSuffixes (startsWordSpace ['v', 'a', 'r']) l ||
    scanSuffixes (startsWordSpace ['l', 'e', 't']) l ||
    scanSuffixes (startsWordSpace ['c', 'o', 'n', 's', 't']) l

/-- The pattern literal passed to regexp.MustCompile by isSuspicious
(part_000 line 161), character for character. -/
def suspiciousPatternSource : String :=
  "(?i)((.)\\2\x7b5\x7d|0x[0-9a-f]+|select\\s.+\\sfrom|script|alert\\(|function|var\\s|let\\s|const\\s)"

/-- The fragment of Go regexp (RE2) pattern validation that decides the
source pattern: RE2 supports no backreferences, so an escape of a digit 1-9
is an invalid escape and compilation fails (every other construct appearing
in the source pattern is legal RE2 and is accepted here).  regexp.MustCompile
panics when compilation fails. -/
def re2NoBackrefEscape : List Char → Bool
  | [] => true
  | '\\' :: c :: rest => !('1' ≤ c && c ≤ '9') && re2NoBackrefEscape rest
  | _ :: rest => re2NoBackrefEscape rest

def mustCompileOk (pat : String) : Bool := re2NoBackrefEscape pat.data

/-- isSuspicious from the legacy services generation (part_000 lines
156-163).  The function first compiles its pattern with regexp.MustCompile
inside the call; RE2 rejects the backreference escape in the run-of-six
alternative, so compilation fails and every call panics, modelled as none,
before any matching occurs.  Were the pattern to compile, the match verdict
would be returned. -/
def isSuspicious (address : String) : Option Bool :=
  if mustCompileOk suspiciousPatternSource then some (suspiciousMatch address)
  else none

set_option maxRecDepth 4000 in
/-- C3 counterexample: the current sanitizer applies no length cap, so 201
letters pass through with length 201, contradicting the claimed 200-character
bound. -/
theorem sanitize_length_counterexample :
    (sanitizeAddress (String.mk (List.replicate 201 'a'))).length = 201 := by
  decide

/-- C3 amended: every rune of the current sanitizer's output lies in the
allow-list, and the legacy sanitizer's output is capped at 200 runes; the
200-character bound does not hold for the current sanitizer (see the
counterexample) and the allow-list does not hold for the legacy one. -/
theorem sanitize_allowlist_and_cap :
    (∀ s : String, (sanitizeAddress s).data.all allowedChar = true) ∧
      ∀ s : String, (sanitizeAddress_v1 s).data.length ≤ 200 := by
  constructor
  · intro s
    rw [List.all_eq_true]
    intro c hc
    exact (List.mem_filter.mp hc).2
  · intro s
    exact List.length_take_le _ _

/-! Geofence evaluator.  float64 arithmetic is modelled over the real
numbers; math.Atan2 is modelled on finite arguments. -/

/-- strings.ToLower as applied to the unit strings (ASCII case folding). -/
def toLowerStr (s : String) : String := String.mk (s.data.map Char.toLower)

/-- DISTANCE_MILES from the ports package. -/
def DISTANCE_MILES : String := "mi"

/-- DISTANCE_KILOMETER from the ports package. -/
def DISTANCE_KILOMETER : String := "km"

/-- earthRadiusKm from the services package. -/
noncomputable def earthRadiusKm : ℝ := 6371.0

/-- earthRadiusMi from the services package. -/
noncomputable def earthRadiusMi : ℝ := 3958.8

/-- math.Atan2 on finite arguments: the angle of the point (x, y) in
(-pi, pi], with the conventional values on the axes. -/
noncomputable def atan2 (y x : ℝ) : ℝ :=
  if 0 < x then Real.arctan (y / x)
  else if x < 0 then
    (if 0 ≤ y then Real.arctan (y / x) + Real.pi else Real.arctan (y / x) - Real.pi)
  else
    (if 0 < y then Real.pi / 2 else if y < 0 then -(Real.pi / 2) else 0)

/-- The intermediate value a of calculateDistance (services package, both
generations textually identical; the association of the products follows the
Go expression). -/
noncomputable def haversineA (lat1 lng1 lat2 lng2 : ℝ) : ℝ :=
  let lat1Rad := lat1 * (Real.pi / 180.0)
  let lat2Rad := lat2 * (Real.pi / 180.0)
  let lng1Rad := lng1 * (Real.pi / 180.0)
  let lng2Rad := lng2 * (Real.pi / 180.0)
  let dLat := lat2Rad - lat1Rad
  let dLng := lng2Rad - lng1Rad
  Real.sin (dLat / 2) * Real.sin (dLat / 2) +
    Real.cos lat1Rad * Real.cos lat2Rad * Real.sin (dLng / 2) * Real.sin (dLng / 2)

/-- The intermediate value c of calculateDistance. -/
noncomputable def haversineC (lat1 lng1 lat2 lng2 : ℝ) : ℝ :=
  2 * atan2 (Real.sqrt (haversineA lat1 lng1 lat2 lng2))
      (Real.sqrt (1 - haversineA lat1 lng1 lat2 lng2))

/-- calculateDistance from the services package (part_000 lines 113-136 and
250-273, textually identical up to the named constant for the mile unit):
Haversine distance with the radius selected by case-insensitive comparison of
the unit with "mi", defaulting to kilometers. -/
noncomputable def calculateDistance (lat1 lng1 lat2 lng2 : ℝ) (unit : String) : ℝ :=
  if toLowerStr unit = DISTANCE_MILES then
    earthRadiusMi * haversineC lat1 lng1 lat2 lng2
  else
    earthRadiusKm * haversineC lat1 lng1 lat2 lng2

/-- Geofence configuration shared by both generations: config.MapConfig of
the current generation and the Geofence section of config.Config of the
legacy generation carry the same four fields. -/
structure MapConfig where
  CenterLat : ℝ
  CenterLng : ℝ
  MaxDistance : ℝ
  DistanceUnit : String

/-- calculateDistance of GoogleMapsAdapter (adapters/maps_adapter.go lines
47-69): the same Haversine kernel, but the radius is selected by
case-sensitive comparison of the configured unit with "km", defaulting to
miles. -/
noncomputable def adapterCalculateDistance (cfg : MapConfig)
    (lat1 lng1 lat2 lng2 : ℝ) : ℝ :=
  if cfg.DistanceUnit = DISTANCE_KILOMETER then
    earthRadiusKm * haversineC lat1 lng1 lat2 lng2
  else
    earthRadiusMi * haversineC lat1 lng1 lat2 lng2

/-- isWithinGeofence from the legacy services generation (part_000 lines
100-110), also inlined at part_000 lines 232-244 of the current generation:
the distance from the point to the configured center is at most MaxDistance
(boundary inclusive). -/
def isWithinGeofence (cfg : MapConfig) (lat lng : ℝ) : Prop :=
  calculateDistance lat lng cfg.CenterLat cfg.CenterLng cfg.DistanceUnit ≤
    cfg.MaxDistance

/-- Modelled from the spec, section 4.4: the Haversine great-circle formula
a = sin^2(dLat/2) + cos(lat1) cos(lat2) sin^2(dLng/2) on the radian
conversions of the inputs. -/
noncomputable def specHaversineA (lat1 lng1 lat2 lng2 : ℝ) : ℝ :=
  Real.sin ((lat2 * (Real.pi / 180.0) - lat1 * (Real.pi / 180.0)) / 2) ^ 2 +
    Real.cos (lat1 * (Real.pi / 180.0)) * Real.cos (lat2 * (Real.pi / 180.0)) *
      Real.sin ((lng2 * (Real.pi / 180.0) - lng1 * (Real.pi / 180.0)) / 2) ^ 2

/-- Modelled from the spec, section 4.4: distance = R * c with
c = 2 atan2(sqrt a, sqrt(1-a)). -/
noncomputable def specHaversineDistance (R lat1 lng1 lat2 lng2 : ℝ) : ℝ :=
  R * (2 * atan2 (Real.sqrt (specHaversineA lat1 lng1 lat2 lng2))
        (Real.sqrt (1 - specHaversineA lat1 lng1 lat2 lng2)))

lemma specHaversineA_eq (lat1 lng1 lat2 lng2 : ℝ) :
    specHaversineA lat1 lng1 lat2 lng2 = haversineA lat1 lng1 lat2 lng2 := by
  simp only [specHaversineA, haversineA]
  ring

lemma specHaversineDistance_eq (R lat1 lng1 lat2 lng2 : ℝ) :
    specHaversineDistance R lat1 lng1 lat2 lng2 = R * haversineC lat1 lng1 lat2 lng2 := by
  simp only [specHaversineDistance, haversineC, specHaversineA_eq]

/-- C2 amended: the services calculateDistance computes the spec's Haversine
distance with the radius chosen by case-insensitive comparison with "mi"
(default kilometers), whereas the GoogleMapsAdapter variant chooses the
radius by case-sensitive comparison with "km" and defaults to miles. -/
theorem calculateDistance_radius_selection (lat1 lng1 lat2 lng2 : ℝ)
    (unit : String) (cfg : MapConfig) :
    calculateDistance lat1 lng1 lat2 lng2 unit =
        specHaversineDistance
          (if toLowerStr unit = DISTANCE_MILES then earthRadiusMi else earthRadiusKm)
          lat1 lng1 lat2 lng2 ∧
      adapterCalculateDistance cfg lat1 lng1 lat2 lng2 =
        specHaversineDistance
          (if cfg.DistanceUnit = DISTANCE_KILOMETER then earthRadiusKm else earthRadiusMi)
          lat1 lng1 lat2 lng2 := by
  rw [specHaversineDistance_eq, specHaversineDistance_eq]
  constructor
  · unfold calculateDistance
    split <;> simp_all
  · unfold adapterCalculateDistance
    split <;> simp_all

lemma haversineA_zero_180 : haversineA 0 0 0 180 = 1 := by
  have h180 : (180 : ℝ) * (Real.pi / 180.0) = Real.pi := by
    norm_num
    ring
  simp only [haversineA, h180, zero_mul, sub_self, sub_zero, zero_div,
    Real.sin_zero, Real.cos_zero, Real.sin_pi_div_two]
  norm_num [Real.sin_pi_div_two]

lemma atan2_one_zero : atan2 1 0 = Real.pi / 2 := by
  unfold atan2
  rw [if_neg (lt_irrefl 0), if_neg (lt_irrefl 0), if_pos one_pos]

lemma haversineC_zero_180 : haversineC 0 0 0 180 = Real.pi := by
  unfold haversineC
  rw [haversineA_zero_180, show (1:ℝ) - 1 = 0 by norm_num,
    Real.sqrt_zero, Real.sqrt_one, atan2_one_zero]
  ring

/-- C2 counterexample: for the unit "KM" (case-insensitively not "mi", so the
claim demands the kilometer radius 6371.0) and the points (0,0) and (0,180),
the GoogleMapsAdapter distance is the mile-radius value 3958.8 * pi and
differs from the claimed kilometer-radius Haversine value. -/
theorem adapter_unit_counterexample :
    toLowerStr "KM" ≠ DISTANCE_MILES ∧
      adapterCalculateDistance ⟨0, 0, 1, "KM"⟩ 0 0 0 180 ≠
        specHaversineDistance earthRadiusKm 0 0 0 180 := by
  constructor
  · decide
  · rw [specHaversineDistance_eq]
    unfold adapterCalculateDistance
    rw [if_neg (by decide), haversineC_zero_180]
    intro h
    have hne : earthRadiusMi ≠ earthRadiusKm := by
      unfold earthRadiusMi earthRadiusKm
      norm_num
    exact hne (mul_right_cancel₀ Real.pi_ne_zero h)

lemma haversineA_bounds (lat1 lng1 lat2 lng2 : ℝ) :
    0 ≤ haversineA lat1 lng1 lat2 lng2 ∧ haversineA lat1 lng1 lat2 lng2 ≤ 1 := by
  simp only [haversineA]
  set A := lat1 * (Real.pi / 180.0) with hA
  set B := lat2 * (Real.pi / 180.0) with hB
  set L := (lng2 * (Real.pi / 180.0) - lng1 * (Real.pi / 180.0)) / 2 with hL
  have hs : Real.sin ((B - A) / 2) ^ 2 = 1 / 2 - Real.cos (B - A) / 2 := by
    have h := Real.sin_sq_eq_half_sub ((B - A) / 2)
    rwa [show 2 * ((B - A) / 2) = B - A by ring] at h
  have hsum : Real.cos (A + B) + Real.cos (B - A) = 2 * (Real.cos A * Real.cos B) := by
    rw [Real.cos_add, Real.cos_sub]
    ring
  have ht0 : 0 ≤ Real.sin L ^ 2 := sq_nonneg _
  have ht1 : Real.sin L ^ 2 ≤ 1 := Real.sin_sq_le_one L
  have hc1 : -1 ≤ Real.cos (B - A) := Real.neg_one_le_cos _
  have hc2 : Real.cos (B - A) ≤ 1 := Real.cos_le_one _
  have hd1 : -1 ≤ Real.cos (A + B) := Real.neg_one_le_cos _
  have hd2 : Real.cos (A + B) ≤ 1 := Real.cos_le_one _
  constructor
  · nlinarith [mul_nonneg (sub_nonneg.mpr ht1) (sub_nonneg.mpr hc2),
      mul_nonneg ht0 (by linarith : (0:ℝ) ≤ 1 + Real.cos (A + B))]
  · nlinarith [mul_nonneg (sub_nonneg.mpr ht1) (by linarith : (0:ℝ) ≤ 1 + Real.cos (B - A)),
      mul_nonneg ht0 (sub_nonneg.mpr hd2)]

lemma atan2_nonneg (y x : ℝ) (hy : 0 ≤ y) (hx : 0 ≤ x) : 0 ≤ atan2 y x := by
  unfold atan2
  split
  next h =>
    have h0 : Real.arctan 0 ≤ Real.arctan (y / x) :=
      Real.arctan_strictMono.monotone (div_nonneg hy h.le)
    rwa [Real.arctan_zero] at h0
  next h =>
    rw [if_neg (by linarith : ¬x < 0)]
    split
    next => positivity
    next h2 =>
      rw [if_neg (by linarith : ¬y < 0)]

lemma haversineC_nonneg (lat1 lng1 lat2 lng2 : ℝ) :
    0 ≤ haversineC lat1 lng1 lat2 lng2 := by
  unfold haversineC
  have h := atan2_nonneg (Real.sqrt (haversineA lat1 lng1 lat2 lng2))
    (Real.sqrt (1 - haversineA lat1 lng1 lat2 lng2))
    (Real.sqrt_nonneg _) (Real.sqrt_nonneg _)
  linarith

/-- C10 as stated: for all real inputs the intermediate a lies in [0, 1], so
the argument 1 - a of the square root is never negative, and the returned
distance is non-negative (in the exact-real model of the float arithmetic). -/
theorem calculateDistance_safe (lat1 lng1 lat2 lng2 : ℝ) (unit : String) :
    0 ≤ haversineA lat1 lng1 lat2 lng2 ∧
      haversineA lat1 lng1 lat2 lng2 ≤ 1 ∧
      0 ≤ 1 - haversineA lat1 lng1 lat2 lng2 ∧
      0 ≤ calculateDistance lat1 lng1 lat2 lng2 unit := by
  obtain ⟨h0, h1⟩ := haversineA_bounds lat1 lng1 lat2 lng2
  refine ⟨h0, h1, by linarith, ?_⟩
  unfold calculateDistance
  split
  · exact mul_nonneg (by unfold earthRadiusMi; norm_num) (haversineC_nonneg _ _ _ _)
  · exact mul_nonneg (by unfold earthRadiusKm; norm_num) (haversineC_nonneg _ _ _ _)

lemma haversineA_self (lat lng : ℝ) :
    haversineA lat lng lat lng = 0 := by
  simp [haversineA]

lemma atan2_zero_one : atan2 0 1 = 0 := by
  unfold atan2
  rw [if_pos one_pos]
  simp [Real.arctan_zero]

lemma calculateDistance_self (lat lng : ℝ) (unit : String) :
    calculateDistance lat lng lat lng unit = 0 := by
  have hC : haversineC lat lng lat lng = 0 := by
    unfold haversineC
    rw [haversineA_self lat lng]
    norm_num [Real.sqrt_zero, Real.sqrt_one, atan2_zero_one]
  unfold calculateDistance
  split <;> rw [hC] <;> ring

/-- C6 as stated: the distance from a point to itself is 0 for every unit,
and a point identical to the configured center is within the geofence for
every non-negative MaxDistance. -/
theorem distance_self_zero_in_range :
    (∀ (lat lng : ℝ) (unit : String), calculateDistance lat lng lat lng unit = 0) ∧
      ∀ (cfg : MapConfig) (lat lng : ℝ), cfg.CenterLat = lat → cfg.CenterLng = lng →
        0 ≤ cfg.MaxDistance → isWithinGeofence cfg lat lng := by
  constructor
  · exact fun lat lng unit => calculateDistance_self lat lng unit
  · intro cfg lat lng h1 h2 h3
    unfold isWithinGeofence
    rw [h1, h2, calculateDistance_self]
    exact h3

/-- Witness for distance_self_zero_in_range at a concrete config whose center
equals the queried point. -/
theorem distance_self_zero_in_range_witness :
    (0 : ℝ) ≤ 5 ∧ isWithinGeofence ⟨1, 2, 5, "km"⟩ 1 2 :=
  ⟨by norm_num,
    distance_self_zero_in_range.2 ⟨1, 2, 5, "km"⟩ 1 2 rfl rfl (by norm_num)⟩

/-- C7 as stated: the in-range verdict is monotone in MaxDistance; with
center, unit and point fixed, enlarging the radius keeps an in-range point in
range. -/
theorem isWithinRange_monotone (clat clng : ℝ) (unit : String)
    (lat lng d1 d2 : ℝ) (hd : d1 ≤ d2)
    (h : isWithinGeofence ⟨clat, clng, d1, unit⟩ lat lng) :
    isWithinGeofence ⟨clat, clng, d2, unit⟩ lat lng :=
  le_trans h hd

/-- Witness for isWithinRange_monotone: a point at the center is in range for
radius 0, hence for radius 1. -/
theorem isWithinRange_monotone_witness :
    (0 : ℝ) ≤ 1 ∧ isWithinGeofence ⟨3, 4, 1, "km"⟩ 3 4 :=
  ⟨by norm_num,
    isWithinRange_monotone 3 4 "km" 3 4 0 1 (by norm_num)
      (by
        show calculateDistance 3 4 3 4 "km" ≤ 0
        rw [calculateDistance_self])⟩

/-! Validation orchestrator.  The external geocoding capability
(ports.AddressValidator) is an opaque function from the cleaned address to a
result and an optional error; the model additionally reports whether the
capability was invoked. -/

/-- AddressValidationResult from the ports package. -/
structure AddressValidationResult where
  IsValid : Bool
  FormattedAddress : String
  Latitude : ℝ
  Longitude : ℝ
  InRange : Bool
  Error : String

/-- ports.AddressValidator: the injected external geocoding capability. -/
def AddressValidatorPort : Type :=
  String → AddressValidationResult × Option String

/-- ErrEmptyAddress from the services package (its message string). -/
def ErrEmptyAddress : String := "address is empty"

/-- ErrSuspiciousPattern from the services package (its message string). -/
def ErrSuspiciousPattern : String := "suspicious address detected"

noncomputable instance (cfg : MapConfig) (lat lng : ℝ) :
    Decidable (isWithinGeofence cfg lat lng) :=
  inferInstanceAs (Decidable (_ ≤ _))

/-- ValidateAddress of the current services generation (part_000 lines
209-247): sanitize; reject when empty (or a single space); otherwise call the
external validator, propagate its error, and when the result is valid
annotate it with the geofence verdict.  The second component records whether
the external validator was invoked.  No threat check occurs. -/
noncomputable def ValidateAddress (cfg : MapConfig)
    (validator : AddressValidatorPort) (address : String) :
    (AddressValidationResult × Option String) × Bool :=
  let cleanAddress := sanitizeAddress address
  if cleanAddress = "" ∨ cleanAddress = " " then
    ((⟨false, "", 0, 0, false, ErrEmptyAddress⟩, some ErrEmptyAddress), false)
  else
    let r := validator cleanAddress
    match r.2 with
    | some e => ((r.1, some e), true)
    | none =>
      if r.1.IsValid then
        (({ r.1 with
            InRange := if isWithinGeofence cfg r.1.Latitude r.1.Longitude
              then true else false }, none), true)
      else ((r.1, none), true)

/-- ValidateAddress of the legacy services generation (part_000 lines 45-97):
sanitize; reject when empty; then consult the threat detector — whose pattern
compilation panics, modelled as none propagating to the caller — and were a
verdict produced, reject flagged addresses, otherwise call the external
validator, propagate its error, and when the result is valid annotate it
with the geofence verdict.  The second component of a normal return records
whether the external validator was invoked. -/
noncomputable def ValidateAddress_v1 (cfg : MapConfig)
    (validator : AddressValidatorPort) (address : String) :
    Option ((AddressValidationResult × Option String) × Bool) :=
  let cleanAddress := sanitizeAddress_v1 address
  if cleanAddress = "" then
    some ((⟨false, "", 0, 0, false, ErrEmptyAddress⟩, some ErrEmptyAddress), false)
  else
    match isSuspicious cleanAddress with
    | none => none
    | some true =>
      some ((⟨false, "", 0, 0, false, ErrSuspiciousPattern⟩, some ErrSuspiciousPattern), false)
    | some false =>
      let r := validator cleanAddress
      match r.2 with
      | some e => some ((r.1, some e), true)
      | none =>
        if r.1.IsValid then
          some (({ r.1 with
              InRange := if isWithinGeofence cfg r.1.Latitude r.1.Longitude
                then true else false }, none), true)
        else some ((r.1, none), true)

/-- A substitute external validator that always reports an invalid address
with no transport error. -/
def stubValidator : AddressValidatorPort :=
  fun _ => (⟨false, "", 0, 0, false, ""⟩, none)

/-- C4: the threat-check behaviour of the claim cannot occur in the program.
The suspicious-pattern regex carries a backreference escape that RE2
rejects, so its compilation fails and regexp.MustCompile panics on every
isSuspicious call: at the input aaaaaa (whose pattern-described verdict
would be suspicious), the legacy orchestrator panics instead of terminating
with the suspicious-input outcome, and the current orchestrator, which has
no threat check at all, invokes the external geocoding capability on it. -/
theorem threat_check_code_bug :
    mustCompileOk suspiciousPatternSource = false ∧
      suspiciousMatch (sanitizeAddress_v1 "aaaaaa") = true ∧
      isSuspicious (sanitizeAddress_v1 "aaaaaa") = none ∧
      ValidateAddress_v1 ⟨0, 0, 1, "km"⟩ stubValidator "aaaaaa" = none ∧
      (ValidateAddress ⟨0, 0, 1, "km"⟩ stubValidator "aaaaaa").2 = true := by
  refine ⟨by decide, by decide, by decide, ?_, ?_⟩
  · have hs : sanitizeAddress_v1 "aaaaaa" = "aaaaaa" := by decide
    unfold ValidateAddress_v1
    rw [hs, if_neg (by decide),
      show isSuspicious "aaaaaa" = (none : Option Bool) from by decide]
  · have hs : sanitizeAddress "aaaaaa" = "aaaaaa" := by decide
    unfold ValidateAddress
    rw [hs, if_neg (by decide)]
    rfl

end AddressValidator
